import Mathlib

/-!
Verification development for the cookidump collection-dump pipeline.

The definitions below are a shallow embedding of the Python sources:
`models.py` (RecipeState, Recipe, Collection) and `dumpCollections.py`
(ThreadSafeResultCollector, ScraperSetup.populateCollectionData,
ScraperSetup.recipeToJSON, CollectionProcessor, RecipeProcessor,
CookidooScraper).  Python dicts are embedded as association lists,
enum values keep their names, locked tracker methods become pure
state-passing functions (the lock makes each method atomic, so a run is
a sequence of method applications), Python exceptions become `Except`,
and external effects (Selenium navigation, lxml extraction, file writes,
regex engines) are oracle parameters.
-/

namespace Cookidump

/-- Memory management states for Recipe objects (`models.RecipeState`). -/
inductive RecipeState where
  | BASIC_INFO_ONLY
  | FULL_DATA_LOADED
  | JSON_EXPORTED
  | MEMORY_CLEARED
deriving DecidableEq, Repr

/-- One entry of `Recipe.photos` (a dict with filename/name/data keys in the source). -/
structure Photo where
  filename : String
  name : String
  data : String
deriving DecidableEq, Repr

/-- The `Recipe` dataclass of `models.py`, with its private `_memory_state` field. -/
structure Recipe where
  id : String
  title : String
  url : String
  language : String := ""
  categories : List String := []
  source : String := ""
  source_url : String := ""
  ingredients : String := ""
  directions : String := ""
  notes : String := ""
  mynotes : String := ""
  tags : List String := []
  prep_time : String := ""
  total_time : String := ""
  servings : String := ""
  scaling : List String := []
  photo_data : String := ""
  photos : List Photo := []
  memory_state : RecipeState := RecipeState.BASIC_INFO_ONLY
deriving DecidableEq, Repr

/-- `Recipe.mark_full_data_loaded` in `models.py`. -/
def mark_full_data_loaded (r : Recipe) : Recipe :=
  { r with memory_state := RecipeState.FULL_DATA_LOADED }

/-- `Recipe.mark_json_exported` in `models.py`. -/
def mark_json_exported (r : Recipe) : Recipe :=
  { r with memory_state := RecipeState.JSON_EXPORTED }

/-- `Recipe.is_memory_cleared` in `models.py`. -/
def is_memory_cleared (r : Recipe) : Bool :=
  r.memory_state == RecipeState.MEMORY_CLEARED

/-- `Recipe.clear_memory_heavy_fields` in `models.py`: refuses (returning the
recipe unchanged) unless the JSON has been exported; otherwise empties the
heavy fields and moves the state to `MEMORY_CLEARED`.  The `debug` branch of
the source only prints a size estimate and does not change any field. -/
def clear_memory_heavy_fields (r : Recipe) : Bool × Recipe :=
  if r.memory_state ≠ RecipeState.JSON_EXPORTED then
    (false, r)
  else
    (true, { r with
      ingredients := "", directions := "", notes := "", mynotes := "",
      photo_data := "", photos := [],
      memory_state := RecipeState.MEMORY_CLEARED })

/-- The `Collection` dataclass of `models.py`.  Counts are Python ints,
where `-1` marks an absent header/official count. -/
structure Collection where
  title : String
  url : String
  colltype : String
  all_recipes : List Recipe := []
  json_recipes : List Recipe := []
  recipe_list_text : String := ""
  actual_recipe_count : Int := 0
  header_recipe_count : Int := -1
  official_recipe_count : Int := -1
deriving DecidableEq, Repr

/-- `Collection.master_index_count` in `models.py`: the official count when
available (not `-1`), else the actual count discovered on the page. -/
def master_index_count (c : Collection) : Int :=
  if c.official_recipe_count ≠ -1 then c.official_recipe_count
  else c.actual_recipe_count

/-- Lookup in the association-list embedding of the Python dict
`ThreadSafeResultCollector.recipe_states`. -/
def lookupState : List (String × RecipeState) → String → Option RecipeState
  | [], _ => none
  | (k, v) :: rest, id => if k = id then some v else lookupState rest id

/-- Key update in the association-list embedding of a Python dict
(`d[key] = value`): overwrites an existing binding, else appends. -/
def setState : List (String × RecipeState) → String → RecipeState → List (String × RecipeState)
  | [], id, st => [(id, st)]
  | (k, v) :: rest, id, st =>
    if k = id then (k, st) :: rest else (k, v) :: setState rest id st

/-- The mutable state of `ThreadSafeResultCollector` in `dumpCollections.py`.
Every method of the class runs under one lock, so a concurrent run is a
sequence of atomic method applications on this state. -/
structure CollectorState where
  recipe_states : List (String × RecipeState)
  processed_collections : Nat
  processed_recipes : Nat
  errors : List String
deriving DecidableEq, Repr

/-- The collector as built by `ThreadSafeResultCollector.__init__`. -/
def emptyCollector : CollectorState :=
  { recipe_states := [], processed_collections := 0, processed_recipes := 0, errors := [] }

/-- `ThreadSafeResultCollector.mark_recipe_for_processing`: first call for an
id stores `FULL_DATA_LOADED` and returns `true`; any later call returns
`false` with the state untouched. -/
def mark_recipe_for_processing (s : CollectorState) (recipe_id : String) : Bool × CollectorState :=
  match lookupState s.recipe_states recipe_id with
  | none =>
    (true, { s with recipe_states := setState s.recipe_states recipe_id RecipeState.FULL_DATA_LOADED })
  | some _ => (false, s)

/-- `ThreadSafeResultCollector.mark_recipe_json_exported`: sets the state of
the id to `JSON_EXPORTED` whenever the id is present in the map, whatever its
current state; a no-op for an unknown id. -/
def mark_recipe_json_exported (s : CollectorState) (recipe_id : String) : CollectorState :=
  match lookupState s.recipe_states recipe_id with
  | none => s
  | some _ =>
    { s with recipe_states := setState s.recipe_states recipe_id RecipeState.JSON_EXPORTED }

/-- `ThreadSafeResultCollector.can_clear_memory`: true iff the tracked state
is `JSON_EXPORTED` (an absent id compares unequal, hence false). -/
def can_clear_memory (s : CollectorState) (recipe_id : String) : Bool :=
  match lookupState s.recipe_states recipe_id with
  | some st => st == RecipeState.JSON_EXPORTED
  | none => false

/-- `ThreadSafeResultCollector.mark_recipe_memory_cleared`: sets the state of
the id to `MEMORY_CLEARED` whenever the id is present in the map, whatever its
current state; a no-op for an unknown id. -/
def mark_recipe_memory_cleared (s : CollectorState) (recipe_id : String) : CollectorState :=
  match lookupState s.recipe_states recipe_id with
  | none => s
  | some _ =>
    { s with recipe_states := setState s.recipe_states recipe_id RecipeState.MEMORY_CLEARED }

/-- `ThreadSafeResultCollector.get_recipe_state`. -/
def get_recipe_state (s : CollectorState) (recipe_id : String) : Option RecipeState :=
  lookupState s.recipe_states recipe_id

/-- `ThreadSafeResultCollector.increment_counters`. -/
def increment_counters (s : CollectorState) (collections recipes : Nat) : CollectorState :=
  { s with
    processed_collections := s.processed_collections + collections,
    processed_recipes := s.processed_recipes + recipes }

/-- `ThreadSafeResultCollector.add_error`: appends one message to the error
log (the `print` is an external effect).  The method is total. -/
def add_error (s : CollectorState) (error_msg : String) : CollectorState :=
  { s with errors := s.errors ++ [error_msg] }

/-- `ThreadSafeResultCollector.get_stats`: the error count is the length of
the error log. -/
def get_stats (s : CollectorState) : Nat × Nat × Nat :=
  (s.processed_collections, s.processed_recipes, s.errors.length)

/-- Runs a sequence of `mark_recipe_for_processing` calls, returning the final
state together with the list of returned booleans, in call order. -/
def runClaims (s : CollectorState) : List String → CollectorState × List Bool
  | [] => (s, [])
  | i :: rest =>
    let r := mark_recipe_for_processing s i
    let f := runClaims r.2 rest
    (f.1, r.1 :: f.2)

/-- Number of `true` results among the calls made for a given id, pairing the
call sequence with the returned booleans positionally. -/
def countTrueFor (id : String) : List String → List Bool → Nat
  | i :: is, b :: bs => (if i = id ∧ b = true then 1 else 0) + countTrueFor id is bs
  | _, _ => 0

/-- The slice of `configuration.ScrapingConfiguration` consumed by the claims.
Compiled regexes (`re.Pattern`, an external engine) are embedded as opaque
Boolean matchers: `some p` stands for a compiled pattern whose `search`
returns a match exactly on the titles where `p` is `true`; `none` stands for
Python `None`.  `excluded_match` likewise stands for
`ConfigurationManager.is_collection_excluded_from_json` applied to this
configuration's `excluded_collection_patterns`. -/
structure ScrapingConfiguration where
  pattern : Option String := none
  saved_collections : Bool := false
  json_export : Bool := true
  collection_pattern : Option (String → Bool) := none
  recipe_pattern : Option (String → Bool) := none
  excluded_match : String → Bool := fun _ => false

/-- `CookidooScraper.should_process_collection`: include if (saved kind and
saved-inclusion requested), else if no pattern string was given, else if a
compiled collection pattern exists and matches the title; otherwise skip. -/
def should_process_collection (config : ScrapingConfiguration) (collection : Collection) : Bool :=
  if collection.colltype == "saved" && config.saved_collections then true
  else if config.pattern.isNone then true
  else
    match config.collection_pattern with
    | some p => p collection.title
    | none => false

/-- The filtering step of `CookidooScraper.process_collections_parallel`: only
collections passing `should_process_collection` are submitted to the pool. -/
def collections_to_process (config : ScrapingConfiguration) (collections : List Collection) : List Collection :=
  collections.filter (fun coll => should_process_collection config coll)

/-- Code-point lexicographic order on character lists: exactly Python's
ordering on `str` (`<=` on strings), used for its tuple sort keys. -/
def charListLe : List Char → List Char → Bool
  | [], _ => true
  | _ :: _, [] => false
  | a :: as, b :: bs =>
    if a.toNat < b.toNat then true
    else if b.toNat < a.toNat then false
    else charListLe as bs

/-- Python string comparison `a <= b` (code-point lexicographic). -/
def strLe (a b : String) : Bool := charListLe a.toList b.toList

/-- Python tuple comparison `(k1, t1) <= (k2, t2)` on pairs of strings. -/
def pairKeyLeB (p q : String × String) : Bool :=
  if p.1 = q.1 then strLe p.2 q.2 else strLe p.1 q.1

/-- The sort key `(coll.colltype, coll.title)` used by
`CookidooScraper.generate_final_outputs`. -/
def collKey (c : Collection) : String × String := (c.colltype, c.title)

/-- The comparison `sorted` applies between two collections under the key
`(colltype, title)`. -/
def collKeyLe (a b : Collection) : Prop := pairKeyLeB (collKey a) (collKey b) = true

instance : DecidableRel collKeyLe := fun _ _ => instDecidableEqBool _ _

/-- Python's `sorted(..., key=lambda c: c.id)` comparison between recipes. -/
def recipeIdLe (a b : Recipe) : Prop := strLe a.id b.id = true

instance : DecidableRel recipeIdLe := fun _ _ => instDecidableEqBool _ _

/-- One line of the master index:
`"{}\t{}\t{}\n".format(coll.master_index_count, coll.colltype, coll.title)`. -/
def master_index_row (coll : Collection) : String :=
  toString (master_index_count coll) ++ "\t" ++ coll.colltype ++ "\t" ++ coll.title ++ "\n"

/-- The rows of the master index, in emitted order: the collections sorted by
the key `(colltype, title)` with a stable sort (Python's `sorted`; embedded as
insertion sort, which is stable and agrees with any stable sort under the
same comparison). -/
def master_index_rows (collections : List Collection) : List String :=
  (List.insertionSort collKeyLe collections).map master_index_row

/-- The master index text built by `CookidooScraper.generate_final_outputs`. -/
def generate_master_index (collections : List Collection) : String :=
  String.join (master_index_rows collections)

/-- Number of newline characters in a string: Python `text.count("\n")`. -/
def countNewlines (s : String) : Nat := s.toList.count '\n'

/-- The warning condition of `ScraperSetup.save_text`: with an expected line
count given, warn iff `text.count("\n")` differs from it. -/
def save_text_warns (text : String) (expected_lines : Option Nat) : Bool :=
  match expected_lines with
  | none => false
  | some n => countNewlines text != n

/-- Python `"\n".join(lines)`. -/
def joinWithNewline : List String → String
  | [] => ""
  | [l] => l
  | l :: l2 :: rest => l ++ "\n" ++ joinWithNewline (l2 :: rest)

/-- One line of the per-collection listing: `f'{recipe.id}\t{recipe.url}\t{recipe.title}'`. -/
def lineOf (r : Recipe) : String := r.id ++ "\t" ++ r.url ++ "\t" ++ r.title

/-- The listing text built at the end of `ScraperSetup.populateCollectionData`:
lines for all recipes sorted by id, joined with newlines, plus a final
newline when the text is non-empty (Python string truthiness). -/
def recipe_list_text_of (recipes : List Recipe) : String :=
  let text := joinWithNewline ((List.insertionSort recipeIdLe recipes).map lineOf)
  if text = "" then text else text ++ "\n"

/-- A discovered tile `(recipe_id, recipe_name, recipe_url)` turned into a
stub `Recipe(recipe_id, recipe_name, recipe_url)`. -/
def mkRecipe (t : String × String × String) : Recipe :=
  { id := t.1, title := t.2.1, url := t.2.2 }

/-- The JSON-export filter of `ScraperSetup.populateCollectionData`:
`json_export and (pattern is None or (recipe_pattern matches the name))`,
then demoted to false when the collection title is excluded. -/
def should_add_to_json (config : ScrapingConfiguration) (collection_title recipe_name : String) : Bool :=
  let base := config.json_export &&
    (config.pattern.isNone ||
      (match config.recipe_pattern with
       | some p => p recipe_name
       | none => false))
  if base then !(config.excluded_match collection_title) else false

/-- One iteration of the recipe loop of `ScraperSetup.populateCollectionData`:
the stub always joins `all_recipes`; it joins `json_recipes` exactly when it
passes the JSON filter for this collection's title. -/
def addTile (config : ScrapingConfiguration) (coll : Collection)
    (t : String × String × String) : Collection :=
  let recipe := mkRecipe t
  let coll2 := { coll with all_recipes := coll.all_recipes ++ [recipe] }
  if should_add_to_json config coll2.title recipe.title then
    { coll2 with json_recipes := coll2.json_recipes ++ [recipe] }
  else coll2

/-- The pure core of `ScraperSetup.populateCollectionData`, given the tiles
returned by `parse_collection_tiles_with_lxml` (the lxml extraction and the
scrolling are external): records the discovered count, appends every stub to
`all_recipes`, appends the stubs passing the JSON filter to `json_recipes`,
and rebuilds `recipe_list_text`. -/
def populateCollectionData (config : ScrapingConfiguration)
    (recipe_tiles : List (String × String × String)) (collection : Collection) : Collection :=
  let c1 := { collection with actual_recipe_count := (recipe_tiles.length : Int) }
  let c2 := recipe_tiles.foldl (addTile config) c1
  { c2 with recipe_list_text := recipe_list_text_of c2.all_recipes }

/-- The submission loop of `CollectionProcessor.process_recipes_parallel`:
walks `json_recipes` in order, claims each id through the tracker, and
submits to the recipe pool exactly those whose claim returned true.  The loop
runs in the single collection thread, so the claims are sequential. -/
def submit_recipes (s : CollectorState) : List Recipe → CollectorState × List Recipe
  | [] => (s, [])
  | r :: rest =>
    let c := mark_recipe_for_processing s r.id
    let f := submit_recipes c.2 rest
    (f.1, if c.1 then r :: f.2 else f.2)

/-- `CollectionProcessor.process_recipes_parallel`, restricted to its effect
on the collection and to the claim gating: the collection value is returned
unchanged (recipe execution mutates only recipes and the tracker, embedded
separately as `process_recipe`), and the submitted recipes are those whose
dedup claim succeeded. -/
def process_recipes_parallel (s : CollectorState) (collection : Collection) :
    CollectorState × Collection × List Recipe :=
  let f := submit_recipes s collection.json_recipes
  (f.1, collection, f.2)

/-- Values of the Paprika-style export dict built by
`ScraperSetup.recipeToJSON`. -/
inductive RJValue where
  | str (v : String)
  | strings (v : List String)
  | photoList (v : List Photo)
deriving DecidableEq, Repr

/-- `ScraperSetup.recipeToJSON`: raises `ValueError` when the recipe's memory
has been cleared, else builds the export record; `tags`, `scaling` and the
timing/serving keys are only present when truthy (non-empty). -/
def recipeToJSON (r : Recipe) : Except String (List (String × RJValue)) :=
  if is_memory_cleared r then
    Except.error ("Cannot export JSON for recipe " ++ r.id ++ " - memory has been cleared")
  else
    Except.ok (
      [("source", RJValue.str r.source),
       ("source_url", RJValue.str r.source_url),
       ("language", RJValue.str r.language),
       ("name", RJValue.str r.title),
       ("categories", RJValue.strings r.categories),
       ("ingredients", RJValue.str r.ingredients),
       ("directions", RJValue.str r.directions),
       ("notes", RJValue.str r.notes),
       ("mynotes", RJValue.str r.mynotes)]
      ++ (if r.tags ≠ [] then [("tags", RJValue.strings r.tags)] else [])
      ++ (if r.scaling ≠ [] then [("scaling", RJValue.strings r.scaling)] else [])
      ++ (if r.prep_time ≠ "" then [("prep_time", RJValue.str r.prep_time)] else [])
      ++ (if r.total_time ≠ "" then [("total_time", RJValue.str r.total_time)] else [])
      ++ (if r.servings ≠ "" then [("servings", RJValue.str r.servings)] else [])
      ++ [("photo_data", RJValue.str r.photo_data),
          ("photos", RJValue.photoList r.photos)])

/-- The error message format of `RecipeProcessor.process_recipe`'s handler. -/
def recipe_error_msg (r : Recipe) (e : String) : String :=
  "Recipe processing error for " ++ r.title ++ ": " ++ e

/-- The body of `RecipeProcessor.process_recipe` before its exception
handler.  External fallible steps are oracles: `nav` is the
`driver.get(recipe.url)` navigation, `populate` is
`ScraperSetup.populateRecipeData` (Selenium extraction), `save` is
`ScraperSetup.save_json` (file write).  An error carries the message and the
recipe as mutated so far (the `recipe` binding visible to the handler).
Tracker mutations happen only after every fallible step succeeded. -/
def process_recipe_body (nav : Except String Unit) (populate : Recipe → Except String Recipe)
    (save : Except String Unit) (s : CollectorState) (recipe : Recipe) :
    Except (String × Recipe) (CollectorState × Recipe) :=
  match nav with
  | Except.error e => Except.error (e, recipe)
  | Except.ok _ =>
    match populate recipe with
    | Except.error e => Except.error (e, recipe)
    | Except.ok r1 =>
      let r2 := mark_full_data_loaded r1
      match recipeToJSON r2 with
      | Except.error e => Except.error (e, r2)
      | Except.ok _ =>
        match save with
        | Except.error e => Except.error (e, r2)
        | Except.ok _ =>
          let r3 := mark_json_exported r2
          let s1 := mark_recipe_json_exported s r3.id
          let s2 := increment_counters s1 0 1
          Except.ok (s2, r3)

/-- `RecipeProcessor.process_recipe`: the body wrapped in
`try ... except Exception`: any failure is converted into one `add_error`
call and the recipe is returned; the function is total, so no exception
reaches the pool. -/
def process_recipe (nav : Except String Unit) (populate : Recipe → Except String Recipe)
    (save : Except String Unit) (s : CollectorState) (recipe : Recipe) :
    CollectorState × Recipe :=
  match process_recipe_body nav populate save s recipe with
  | Except.ok res => res
  | Except.error (e, r) => (add_error s (recipe_error_msg r e), r)

/-- Processing a whole batch of recipes through `process_recipe`, with
per-recipe oracles: every item yields a result whatever the others did. -/
def process_recipe_list (navf : Recipe → Except String Unit)
    (populate : Recipe → Except String Recipe) (savef : Recipe → Except String Unit)
    (s : CollectorState) : List Recipe → CollectorState × List Recipe
  | [] => (s, [])
  | r :: rest =>
    let p := process_recipe (navf r) populate (savef r) s r
    let f := process_recipe_list navf populate savef p.1 rest
    (f.1, p.2 :: f.2)

/-- Tracker state after the run's first (successful) claim of id `"a"`. -/
def c2s1 : CollectorState := (mark_recipe_for_processing emptyCollector "a").2

/-- Tracker state after clearing is recorded for `"a"` straight from the
claimed state, with no export in between. -/
def c2s2 : CollectorState := mark_recipe_memory_cleared c2s1 "a"

/-- Tracker state: `"a"` claimed, then marked exported. -/
def c4s2 : CollectorState := mark_recipe_json_exported c2s1 "a"

/-- Tracker state: `"a"` claimed, exported, then memory-cleared. -/
def c4s3 : CollectorState := mark_recipe_memory_cleared c4s2 "a"

/-- A configuration with JSON export on, no pattern and no exclusions (a run
with `--json` and neither `-p` nor configured exclusion patterns). -/
def cfgPlain : ScrapingConfiguration := {}

/-- A tracker in which id `"r1"` was already claimed by an earlier
collection. -/
def preClaimed : CollectorState := (mark_recipe_for_processing emptyCollector "r1").2

/-- A freshly discovered collection, before processing. -/
def collMains : Collection := { title := "Mains", url := "u2", colltype := "custom" }

/-- The single tile discovered on `collMains`'s page; its id duplicates the
one already claimed in `preClaimed`. -/
def tilesMains : List (String × String × String) := [("r1", "Bread", "url1")]

/-- `collMains` after `populateCollectionData` over `tilesMains`. -/
def collMainsPopulated : Collection := populateCollectionData cfgPlain tilesMains collMains

/-- A fresh collection for the listing counterexample. -/
def collSoups : Collection := { title := "Soups", url := "u1", colltype := "custom" }

/-- One discovered tile whose title contains an embedded newline
(`text_content().strip()` only trims the ends of the extracted name). -/
def tilesNewline : List (String × String × String) := [("id1", "Line1\nLine2", "url3")]

/-- `collSoups` after `populateCollectionData` over `tilesNewline`. -/
def collSoupsPopulated : Collection := populateCollectionData cfgPlain tilesNewline collSoups

/-- A minimal stub recipe used in concrete instantiations. -/
def recipeStub : Recipe := { id := "a", title := "T", url := "U" }

/-- Looking a key up after a dict update: the updated key reads the new
value, every other key is untouched. -/
theorem lookupState_setState (m : List (String × RecipeState)) (id id' : String) (st : RecipeState) :
    lookupState (setState m id st) id' = if id' = id then some st else lookupState m id' := by
  induction m with
  | nil =>
    simp only [setState, lookupState]
    by_cases h : id' = id
    · simp [h]
    · have h2 : ¬ id = id' := fun hh => h hh.symm
      rw [if_neg h2, if_neg h]
  | cons p rest ih =>
    obtain ⟨k, v⟩ := p
    simp only [setState]
    by_cases hk : k = id
    · subst hk
      simp only [if_pos rfl, lookupState]
      by_cases h : id' = k
      · subst h; simp
      · have h2 : ¬ k = id' := fun hh => h hh.symm
        rw [if_neg h2, if_neg h, if_neg h2]
    · simp only [if_neg hk, lookupState]
      by_cases h : k = id'
      · subst h
        have h2 : ¬ k = id := hk
        have h3 : ¬ k = id := hk
        rw [if_pos rfl, if_neg (fun hh : k = id => hk hh), if_pos rfl]
      · rw [if_neg h, if_neg h, ih]

/-- A claim call for any id never erases an existing tracked state. -/
theorem get_recipe_state_after_claim (s : CollectorState) (i id : String) (st : RecipeState)
    (h : get_recipe_state s id = some st) :
    get_recipe_state (mark_recipe_for_processing s i).2 id = some st := by
  unfold get_recipe_state at h
  unfold mark_recipe_for_processing
  cases hl : lookupState s.recipe_states i with
  | some st' => simpa [get_recipe_state] using h
  | none =>
    have hii : id ≠ i := by
      intro he
      rw [he, hl] at h
      cases h
    simp [get_recipe_state, lookupState_setState, hii, h]

/-- A claim call for a different id keeps an unseen id unseen. -/
theorem get_recipe_state_none_after_claim (s : CollectorState) (i id : String)
    (hne : i ≠ id) (h : get_recipe_state s id = none) :
    get_recipe_state (mark_recipe_for_processing s i).2 id = none := by
  unfold get_recipe_state at h
  unfold mark_recipe_for_processing
  cases hl : lookupState s.recipe_states i with
  | some st' => simpa [get_recipe_state] using h
  | none =>
    have hne' : ¬ id = i := fun hh => hne hh.symm
    simp [get_recipe_state, lookupState_setState, hne', h]

/-- Once an id is tracked, every later claim call for it returns `false`. -/
theorem countTrueFor_eq_zero_of_seen (id : String) (st : RecipeState) :
    ∀ (ids : List String) (s : CollectorState), get_recipe_state s id = some st →
      countTrueFor id ids (runClaims s ids).2 = 0 := by
  intro ids
  induction ids with
  | nil => intro s _; rfl
  | cons i rest ih =>
    intro s h
    by_cases hi : i = id
    · subst hi
      have hm : mark_recipe_for_processing s i = (false, s) := by
        unfold mark_recipe_for_processing
        unfold get_recipe_state at h
        rw [h]
      simp only [runClaims, hm, countTrueFor]
      rw [if_neg (by simp), ih s h]
    · have h' := get_recipe_state_after_claim s i id st h
      simp only [runClaims, countTrueFor]
      rw [if_neg (by simp [hi]), ih _ h']

/-- Over a pure claim sequence starting with the id unseen, exactly one call
for that id returns `true` (when the id occurs at all). -/
theorem countTrueFor_claims (id : String) :
    ∀ (ids : List String) (s : CollectorState), get_recipe_state s id = none →
      countTrueFor id ids (runClaims s ids).2 = if id ∈ ids then 1 else 0 := by
  intro ids
  induction ids with
  | nil => intro s _; simp [countTrueFor, runClaims]
  | cons i rest ih =>
    intro s h
    by_cases hi : i = id
    · subst hi
      have hm2 : mark_recipe_for_processing s i =
          (true, { s with recipe_states := setState s.recipe_states i RecipeState.FULL_DATA_LOADED }) := by
        unfold mark_recipe_for_processing
        unfold get_recipe_state at h
        rw [h]
      have hseen : get_recipe_state
          { s with recipe_states := setState s.recipe_states i RecipeState.FULL_DATA_LOADED } i =
          some RecipeState.FULL_DATA_LOADED := by
        simp [get_recipe_state, lookupState_setState]
      simp only [runClaims, hm2, countTrueFor]
      rw [countTrueFor_eq_zero_of_seen i RecipeState.FULL_DATA_LOADED rest _ hseen]
      simp
    · have h' := get_recipe_state_none_after_claim s i id hi h
      simp only [runClaims, countTrueFor]
      have hcond : ¬ (i = id ∧ (mark_recipe_for_processing s i).1 = true) := fun hc => hi hc.1
      rw [if_neg hcond, ih _ h']
      have hm : ¬ id = i := fun hh => hi hh.symm
      simp [List.mem_cons, hm]

/-- C1: across any sequence of `mark_recipe_for_processing` calls, exactly
the first call for an id returns `true` and records it (as
`FULL_DATA_LOADED`); every call for an already tracked id returns `false`
and leaves the state map, both counters and the error log unchanged. -/
theorem mark_recipe_for_processing_at_most_once
    (s : CollectorState) (id : String) (ids : List String) :
    (get_recipe_state s id = none →
      (mark_recipe_for_processing s id).1 = true ∧
      get_recipe_state (mark_recipe_for_processing s id).2 id = some RecipeState.FULL_DATA_LOADED) ∧
    (∀ st, get_recipe_state s id = some st → mark_recipe_for_processing s id = (false, s)) ∧
    (get_recipe_state s id = none →
      countTrueFor id ids (runClaims s ids).2 = if id ∈ ids then 1 else 0) := by
  refine ⟨fun h => ⟨?_, ?_⟩, fun st h => ?_, fun h => countTrueFor_claims id ids s h⟩
  · unfold mark_recipe_for_processing
    unfold get_recipe_state at h
    rw [h]
  · unfold mark_recipe_for_processing
    unfold get_recipe_state at h ⊢
    rw [h]
    simp [lookupState_setState]
  · unfold mark_recipe_for_processing
    unfold get_recipe_state at h
    rw [h]

/-- Witness for C1: from the empty tracker, the claim sequence
`["a", "b", "a"]` yields exactly one `true` for `"a"`. -/
theorem mark_recipe_for_processing_at_most_once_witness :
    get_recipe_state emptyCollector "a" = none ∧
    countTrueFor "a" ["a", "b", "a"] (runClaims emptyCollector ["a", "b", "a"]).2 =
      if "a" ∈ ["a", "b", "a"] then 1 else 0 :=
  ⟨by decide,
   (mark_recipe_for_processing_at_most_once emptyCollector "a" ["a", "b", "a"]).2.2 (by decide)⟩

/-- C2 counterexample: after a claim of `"a"` (state `FULL_DATA_LOADED`,
never exported), `mark_recipe_memory_cleared` records `MEMORY_CLEARED` and
changes the tracker, so the tracker applies this out-of-order transition
instead of rejecting it, and `MEMORY_CLEARED` is observed before
`JSON_EXPORTED`. -/
theorem tracker_applies_out_of_order_clear :
    get_recipe_state c2s1 "a" = some RecipeState.FULL_DATA_LOADED ∧
    get_recipe_state c2s1 "a" ≠ some RecipeState.JSON_EXPORTED ∧
    get_recipe_state c2s2 "a" = some RecipeState.MEMORY_CLEARED ∧
    c2s2 ≠ c2s1 := by decide

/-- C2 (amended): the tracker guards only against unknown ids.
`mark_recipe_json_exported` and `mark_recipe_memory_cleared` are no-ops for
an id that was never claimed, but unconditionally overwrite the state of any
tracked id — so `MEMORY_CLEARED` can be recorded straight from the claimed
state and `JSON_EXPORTED` can be re-entered from `MEMORY_CLEARED`.
`MEMORY_CLEARED` is guaranteed to follow `JSON_EXPORTED` only at call sites
that first check `can_clear_memory`, which holds only in state
`JSON_EXPORTED`. -/
theorem tracker_overwrites_tracked_ids (s : CollectorState) (id : String) :
    (get_recipe_state s id = none →
      mark_recipe_json_exported s id = s ∧ mark_recipe_memory_cleared s id = s) ∧
    (∀ st, get_recipe_state s id = some st →
      get_recipe_state (mark_recipe_memory_cleared s id) id = some RecipeState.MEMORY_CLEARED ∧
      get_recipe_state (mark_recipe_json_exported s id) id = some RecipeState.JSON_EXPORTED) ∧
    (can_clear_memory s id = true → get_recipe_state s id = some RecipeState.JSON_EXPORTED) := by
  refine ⟨fun h => ?_, fun st h => ?_, fun h => ?_⟩
  · unfold get_recipe_state at h
    unfold mark_recipe_json_exported mark_recipe_memory_cleared
    rw [h]
    exact ⟨rfl, rfl⟩
  · unfold get_recipe_state at h ⊢
    unfold mark_recipe_json_exported mark_recipe_memory_cleared
    rw [h]
    simp [lookupState_setState]
  · unfold can_clear_memory at h
    unfold get_recipe_state
    cases hl : lookupState s.recipe_states id with
    | none => rw [hl] at h; cases h
    | some st =>
      rw [hl] at h
      have : st = RecipeState.JSON_EXPORTED := by
        cases st <;> first | rfl | cases h
      rw [this]

/-- Witness for C2 (amended) on the empty tracker and a tracked id. -/
theorem tracker_overwrites_tracked_ids_witness :
    (get_recipe_state emptyCollector "z" = none ∧
      mark_recipe_json_exported emptyCollector "z" = emptyCollector ∧
      mark_recipe_memory_cleared emptyCollector "z" = emptyCollector) ∧
    (get_recipe_state c2s1 "a" = some RecipeState.FULL_DATA_LOADED ∧
      get_recipe_state (mark_recipe_memory_cleared c2s1 "a") "a" =
        some RecipeState.MEMORY_CLEARED) :=
  ⟨⟨by decide,
    ((tracker_overwrites_tracked_ids emptyCollector "z").1 (by decide)).1,
    ((tracker_overwrites_tracked_ids emptyCollector "z").1 (by decide)).2⟩,
   ⟨by decide,
    (((tracker_overwrites_tracked_ids c2s1 "a").2.1 RecipeState.FULL_DATA_LOADED (by decide)).1)⟩⟩

/-- C3: `can_clear_memory` holds exactly when the tracked state is
`JSON_EXPORTED`, and clearing a recipe whose own state is not
`JSON_EXPORTED` returns `false` with every field (state included)
unchanged. -/
theorem can_clear_memory_iff_exported (s : CollectorState) (id : String) (r : Recipe) :
    (can_clear_memory s id = true ↔ get_recipe_state s id = some RecipeState.JSON_EXPORTED) ∧
    (r.memory_state ≠ RecipeState.JSON_EXPORTED → clear_memory_heavy_fields r = (false, r)) := by
  constructor
  · unfold can_clear_memory get_recipe_state
    cases hl : lookupState s.recipe_states id with
    | none => simp
    | some st => cases st <;> simp
  · intro h
    unfold clear_memory_heavy_fields
    rw [if_pos h]

/-- Witness for C3: a tracker with `"a"` merely claimed cannot clear it, and
clearing a freshly constructed recipe is refused without any change. -/
theorem can_clear_memory_iff_exported_witness :
    (can_clear_memory c2s1 "a" = true ↔
      get_recipe_state c2s1 "a" = some RecipeState.JSON_EXPORTED) ∧
    ({ id := "a", title := "T", url := "U" } : Recipe).memory_state ≠ RecipeState.JSON_EXPORTED ∧
    clear_memory_heavy_fields { id := "a", title := "T", url := "U" } =
      (false, { id := "a", title := "T", url := "U" }) :=
  ⟨(can_clear_memory_iff_exported c2s1 "a" { id := "a", title := "T", url := "U" }).1,
   by decide,
   (can_clear_memory_iff_exported c2s1 "a" { id := "a", title := "T", url := "U" }).2 (by decide)⟩

/-- C4 counterexample: for an id whose tracked state is `MEMORY_CLEARED`,
`mark_recipe_json_exported` is not a no-op — it moves the state back to
`JSON_EXPORTED`. -/
theorem mark_exported_resets_cleared_id :
    get_recipe_state c4s3 "a" = some RecipeState.MEMORY_CLEARED ∧
    mark_recipe_json_exported c4s3 "a" ≠ c4s3 ∧
    get_recipe_state (mark_recipe_json_exported c4s3 "a") "a" =
      some RecipeState.JSON_EXPORTED := by decide

/-- C4 (amended): `mark_recipe_json_exported` changes nothing for an id that
was never claimed, and for any tracked id — `FULL_DATA_LOADED`,
`JSON_EXPORTED` or `MEMORY_CLEARED` alike — sets its state to
`JSON_EXPORTED` (moving a `MEMORY_CLEARED` id back to exported), leaving the
counters and the error log unchanged. -/
theorem mark_exported_behaviour (s : CollectorState) (id : String) :
    (get_recipe_state s id = none → mark_recipe_json_exported s id = s) ∧
    (∀ st, get_recipe_state s id = some st →
      get_recipe_state (mark_recipe_json_exported s id) id = some RecipeState.JSON_EXPORTED ∧
      (mark_recipe_json_exported s id).processed_collections = s.processed_collections ∧
      (mark_recipe_json_exported s id).processed_recipes = s.processed_recipes ∧
      (mark_recipe_json_exported s id).errors = s.errors) := by
  constructor
  · intro h
    unfold get_recipe_state at h
    unfold mark_recipe_json_exported
    rw [h]
  · intro st h
    unfold get_recipe_state at h ⊢
    unfold mark_recipe_json_exported
    rw [h]
    simp [lookupState_setState]

/-- Witness for C4 (amended): no-op on an unknown id; a claimed id moves to
`JSON_EXPORTED`. -/
theorem mark_exported_behaviour_witness :
    (get_recipe_state emptyCollector "z" = none ∧
      mark_recipe_json_exported emptyCollector "z" = emptyCollector) ∧
    (get_recipe_state c2s1 "a" = some RecipeState.FULL_DATA_LOADED ∧
      get_recipe_state (mark_recipe_json_exported c2s1 "a") "a" =
        some RecipeState.JSON_EXPORTED) :=
  ⟨⟨by decide, (mark_exported_behaviour emptyCollector "z").1 (by decide)⟩,
   ⟨by decide,
    ((mark_exported_behaviour c2s1 "a").2 RecipeState.FULL_DATA_LOADED (by decide)).1⟩⟩

/-- C5: a collection is included exactly when it is a saved collection with
saved-inclusion requested, or no pattern string is configured, or a compiled
collection-title pattern exists and matches the title; and the scheduler
submits exactly the collections passing this predicate. -/
theorem should_process_collection_spec (config : ScrapingConfiguration) (coll : Collection)
    (colls : List Collection) :
    (should_process_collection config coll = true ↔
      (coll.colltype = "saved" ∧ config.saved_collections = true) ∨
      config.pattern = none ∨
      (∃ p, config.collection_pattern = some p ∧ p coll.title = true)) ∧
    (coll ∈ collections_to_process config colls ↔
      coll ∈ colls ∧ should_process_collection config coll = true) := by
  constructor
  · unfold should_process_collection
    by_cases h1 : (coll.colltype == "saved" && config.saved_collections) = true
    · rw [if_pos h1]
      simp only [Bool.and_eq_true, beq_iff_eq] at h1
      simp [h1]
    · rw [if_neg h1]
      simp only [Bool.and_eq_true, beq_iff_eq, not_and] at h1
      by_cases h2 : config.pattern.isNone = true
      · have hp : config.pattern = none := Option.isNone_iff_eq_none.mp h2
        rw [if_pos h2]
        simp [hp]
      · have hp : ¬ config.pattern = none := fun hh => h2 (Option.isNone_iff_eq_none.mpr hh)
        rw [if_neg h2]
        cases hc : config.collection_pattern with
        | none =>
          constructor
          · intro h
            exact Bool.noConfusion h
          · rintro (⟨hs, hv⟩ | hpn | ⟨q, hq, hm⟩)
            · exact absurd hv (by simpa using h1 hs)
            · exact absurd hpn hp
            · cases hq
        | some p =>
          constructor
          · intro h
            exact Or.inr (Or.inr ⟨p, rfl, h⟩)
          · rintro (⟨hs, hv⟩ | hpn | ⟨q, hq, hm⟩)
            · exact absurd hv (by simpa using h1 hs)
            · exact absurd hpn hp
            · cases hq
              exact hm
  · unfold collections_to_process
    simp [List.mem_filter]

/-- Witness for C5: with JSON export on and no pattern, a custom collection
is included. -/
theorem should_process_collection_spec_witness :
    should_process_collection cfgPlain collMains = true :=
  ((should_process_collection_spec cfgPlain collMains []).1).mpr (Or.inr (Or.inl rfl))

/-- The recipe loop of `populateCollectionData` leaves the identifying fields
alone, appends every stub to `all_recipes` and appends exactly the stubs
passing the JSON filter to `json_recipes`. -/
theorem foldl_addTile_spec (config : ScrapingConfiguration) :
    ∀ (tiles : List (String × String × String)) (coll : Collection),
      (tiles.foldl (addTile config) coll).title = coll.title ∧
      (tiles.foldl (addTile config) coll).all_recipes
        = coll.all_recipes ++ tiles.map mkRecipe ∧
      (tiles.foldl (addTile config) coll).json_recipes
        = coll.json_recipes ++
          (tiles.filter (fun t => should_add_to_json config coll.title t.2.1)).map mkRecipe := by
  intro tiles
  induction tiles with
  | nil => intro coll; simp
  | cons t rest ih =>
    intro coll
    have hstep : List.foldl (addTile config) coll (t :: rest)
        = List.foldl (addTile config) (addTile config coll t) rest := rfl
    have haT : (addTile config coll t).title = coll.title := by
      by_cases h : should_add_to_json config coll.title t.2.1 = true
      · simp [addTile, mkRecipe, h]
      · simp [addTile, mkRecipe, h]
    have haA : (addTile config coll t).all_recipes = coll.all_recipes ++ [mkRecipe t] := by
      by_cases h : should_add_to_json config coll.title t.2.1 = true
      · simp [addTile, mkRecipe, h]
      · simp [addTile, mkRecipe, h]
    have haJ : (addTile config coll t).json_recipes = coll.json_recipes ++
        (if should_add_to_json config coll.title t.2.1 = true then [mkRecipe t] else []) := by
      by_cases h : should_add_to_json config coll.title t.2.1 = true
      · simp [addTile, mkRecipe, h]
      · simp [addTile, mkRecipe, h]
    obtain ⟨iht, iha, ihj⟩ := ih (addTile config coll t)
    rw [hstep]
    refine ⟨by rw [iht, haT], ?_, ?_⟩
    · rw [iha, haA]
      simp
    · rw [ihj, haT, haJ]
      simp only [List.filter_cons]
      by_cases h : should_add_to_json config coll.title t.2.1 = true
      · rw [if_pos h, if_pos (by simpa using h)]
        simp
      · rw [if_neg h, if_neg (by simpa using h)]
        simp

/-- Everything submitted by the claim-gated loop came from its input list. -/
theorem submit_recipes_subset (s : CollectorState) :
    ∀ (l : List Recipe) (r : Recipe), r ∈ (submit_recipes s l).2 → r ∈ l := by
  intro l
  induction l generalizing s with
  | nil => intro r h; cases h
  | cons q rest ih =>
    intro r h
    simp only [submit_recipes] at h
    by_cases hb : (mark_recipe_for_processing s q.id).1 = true
    · rw [if_pos hb] at h
      cases List.mem_cons.mp h with
      | inl he => exact he ▸ List.mem_cons_self q rest
      | inr ht => exact List.mem_cons_of_mem q (ih _ r ht)
    · rw [if_neg hb] at h
      exact List.mem_cons_of_mem q (ih _ r h)

/-- A recipe whose id is already tracked is never submitted by the
claim-gated loop, wherever it appears in the batch. -/
theorem submit_recipes_skips_seen (r : Recipe) (st : RecipeState) :
    ∀ (l : List Recipe) (s : CollectorState), get_recipe_state s r.id = some st →
      r ∉ (submit_recipes s l).2 := by
  intro l
  induction l with
  | nil => intro s _ h; cases h
  | cons q rest ih =>
    intro s hseen h
    simp only [submit_recipes] at h
    by_cases hb : (mark_recipe_for_processing s q.id).1 = true
    · rw [if_pos hb] at h
      cases List.mem_cons.mp h with
      | inl he =>
        subst he
        unfold mark_recipe_for_processing at hb
        unfold get_recipe_state at hseen
        rw [hseen] at hb
        cases hb
      | inr ht =>
        exact ih _ (get_recipe_state_after_claim s q.id r.id st hseen) ht
    · rw [if_neg hb] at h
      exact ih _ (get_recipe_state_after_claim s q.id r.id st hseen) h

/-- C7 (amended): `all_recipes` receives every discovered stub and
`json_recipes` receives exactly the stubs passing the JSON-export filter,
both regardless of the dedup-claim outcome; the claim gates only submission
to the recipe pool — processing returns the collection value unchanged, the
submitted recipes all come from `json_recipes`, and a recipe whose id was
already claimed is never submitted (its claim call returns false). -/
theorem populate_records_all_and_claim_gates_submission
    (config : ScrapingConfiguration) (tiles : List (String × String × String))
    (coll : Collection) (s : CollectorState) :
    (populateCollectionData config tiles coll).all_recipes
      = coll.all_recipes ++ tiles.map mkRecipe ∧
    (populateCollectionData config tiles coll).json_recipes
      = coll.json_recipes ++
        (tiles.filter (fun t => should_add_to_json config coll.title t.2.1)).map mkRecipe ∧
    (process_recipes_parallel s (populateCollectionData config tiles coll)).2.1
      = populateCollectionData config tiles coll ∧
    (∀ r, r ∈ (process_recipes_parallel s (populateCollectionData config tiles coll)).2.2 →
      r ∈ (populateCollectionData config tiles coll).json_recipes) ∧
    (∀ r st, get_recipe_state s r.id = some st →
      r ∉ (process_recipes_parallel s (populateCollectionData config tiles coll)).2.2) := by
  obtain ⟨ht, ha, hj⟩ := foldl_addTile_spec config tiles
    { coll with actual_recipe_count := (tiles.length : Int) }
  refine ⟨?_, ?_, rfl, ?_, ?_⟩
  · exact ha
  · exact hj
  · intro r h
    exact submit_recipes_subset s _ r h
  · intro r st hseen h
    exact submit_recipes_skips_seen r st _ s hseen h

/-- Witness for C7 (amended): the duplicated stub stays in `json_recipes` of
the processed collection, yet is not submitted because `"r1"` was already
claimed. -/
theorem populate_records_all_witness :
    get_recipe_state preClaimed (mkRecipe ("r1", "Bread", "url1")).id =
      some RecipeState.FULL_DATA_LOADED ∧
    mkRecipe ("r1", "Bread", "url1")
      ∉ (process_recipes_parallel preClaimed collMainsPopulated).2.2 :=
  ⟨by decide,
   (populate_records_all_and_claim_gates_submission cfgPlain tilesMains collMains
      preClaimed).2.2.2.2 (mkRecipe ("r1", "Bread", "url1")) RecipeState.FULL_DATA_LOADED
      (by decide)⟩

/-- C7 counterexample: the claim call for the already-claimed id `"r1"`
returns false, the item is not submitted to the pool, and yet it sits in the
processed collection's `json_recipes` (the claim outcome does not filter
`exported_items`; only the pattern filter populated it). -/
theorem claim_failure_leaves_item_in_json_recipes :
    (mark_recipe_for_processing preClaimed "r1").1 = false ∧
    collMainsPopulated.json_recipes = [mkRecipe ("r1", "Bread", "url1")] ∧
    (process_recipes_parallel preClaimed collMainsPopulated).2.1.json_recipes
      = [mkRecipe ("r1", "Bread", "url1")] ∧
    (process_recipes_parallel preClaimed collMainsPopulated).2.2 = [] := by decide

/-- C8: every failure inside `process_recipe` is caught: the handler turns it
into exactly one `add_error` call (one message appended, error count up by
one, states and counters untouched) and returns the recipe; a successful body
passes through; and a batch always yields one result per input recipe, so no
item's failure stops the others. -/
theorem process_recipe_isolates_failures (nav : Except String Unit)
    (populate : Recipe → Except String Recipe) (save : Except String Unit)
    (s : CollectorState) (r : Recipe) :
    (∀ e rc, process_recipe_body nav populate save s r = Except.error (e, rc) →
      process_recipe nav populate save s r = (add_error s (recipe_error_msg rc e), rc) ∧
      (add_error s (recipe_error_msg rc e)).errors = s.errors ++ [recipe_error_msg rc e] ∧
      (get_stats (add_error s (recipe_error_msg rc e))).2.2 = (get_stats s).2.2 + 1 ∧
      (add_error s (recipe_error_msg rc e)).recipe_states = s.recipe_states ∧
      (add_error s (recipe_error_msg rc e)).processed_collections = s.processed_collections ∧
      (add_error s (recipe_error_msg rc e)).processed_recipes = s.processed_recipes) ∧
    (∀ res, process_recipe_body nav populate save s r = Except.ok res →
      process_recipe nav populate save s r = res) ∧
    (∀ (navf : Recipe → Except String Unit) (savef : Recipe → Except String Unit)
        (s0 : CollectorState) (recipes : List Recipe),
      (process_recipe_list navf populate savef s0 recipes).2.length = recipes.length) := by
  refine ⟨fun e rc h => ?_, fun res h => ?_, fun navf savef s0 recipes => ?_⟩
  · unfold process_recipe
    rw [h]
    refine ⟨rfl, rfl, ?_, rfl, rfl, rfl⟩
    simp [get_stats, add_error]
  · unfold process_recipe
    rw [h]
  · induction recipes generalizing s0 with
    | nil => rfl
    | cons q rest ih => simp only [process_recipe_list, List.length_cons, ih]

/-- Witness for C8: a navigation timeout on a concrete recipe is converted
into one recorded error and the recipe is returned. -/
theorem process_recipe_isolates_failures_witness :
    process_recipe_body (Except.error "timeout") (fun r => Except.ok r) (Except.ok ())
        emptyCollector recipeStub = Except.error ("timeout", recipeStub) ∧
    process_recipe (Except.error "timeout") (fun r => Except.ok r) (Except.ok ())
        emptyCollector recipeStub
      = (add_error emptyCollector (recipe_error_msg recipeStub "timeout"), recipeStub) :=
  ⟨rfl,
   ((process_recipe_isolates_failures (Except.error "timeout") (fun r => Except.ok r)
      (Except.ok ()) emptyCollector recipeStub).1 "timeout" recipeStub rfl).1⟩

/-- C9: `recipeToJSON` raises (returns an error) exactly on a recipe whose
memory state is `MEMORY_CLEARED`, and returns an export record for every
other state. -/
theorem recipeToJSON_raises_iff_cleared (r : Recipe) :
    ((∃ e, recipeToJSON r = Except.error e) ↔
      r.memory_state = RecipeState.MEMORY_CLEARED) ∧
    ((∃ j, recipeToJSON r = Except.ok j) ↔
      r.memory_state ≠ RecipeState.MEMORY_CLEARED) := by
  unfold recipeToJSON is_memory_cleared
  by_cases h : r.memory_state = RecipeState.MEMORY_CLEARED
  · simp [h]
  · simp [beq_iff_eq, h]

/-- Witness for C9: a cleared stub errors, a fresh stub exports. -/
theorem recipeToJSON_raises_iff_cleared_witness :
    (∃ e, recipeToJSON { recipeStub with memory_state := RecipeState.MEMORY_CLEARED }
      = Except.error e) ∧
    (∃ j, recipeToJSON recipeStub = Except.ok j) :=
  ⟨(recipeToJSON_raises_iff_cleared
      { recipeStub with memory_state := RecipeState.MEMORY_CLEARED }).1.mpr rfl,
   (recipeToJSON_raises_iff_cleared recipeStub).2.mpr (by decide)⟩

/-- Code-point order is total. -/
theorem charListLe_total : ∀ a b, charListLe a b = true ∨ charListLe b a = true := by
  intro a
  induction a with
  | nil => intro b; left; cases b <;> rfl
  | cons x xs ih =>
    intro b
    cases b with
    | nil => right; rfl
    | cons y ys =>
      rcases Nat.lt_trichotomy x.toNat y.toNat with h | h | h
      · left; simp [charListLe, h]
      · rcases ih ys with h2 | h2
        · left; simp [charListLe, h, h2]
        · right; simp [charListLe, h, h2]
      · right; simp [charListLe, h]

/-- Code-point order is transitive. -/
theorem charListLe_trans : ∀ a b c, charListLe a b = true → charListLe b c = true →
    charListLe a c = true := by
  intro a
  induction a with
  | nil => intro b c _ _; cases c <;> rfl
  | cons x xs ih =>
    intro b c h1 h2
    cases b with
    | nil => simp [charListLe] at h1
    | cons y ys =>
      cases c with
      | nil => simp [charListLe] at h2
      | cons z zs =>
        by_cases hxy : x.toNat < y.toNat
        · by_cases hyz : y.toNat < z.toNat
          · have hxz : x.toNat < z.toNat := Nat.lt_trans hxy hyz
            simp [charListLe, hxz]
          · by_cases hzy : z.toNat < y.toNat
            · simp [charListLe, hyz, hzy] at h2
            · have hyzeq : y.toNat = z.toNat :=
                Nat.le_antisymm (Nat.le_of_not_lt hzy) (Nat.le_of_not_lt hyz)
              have hxz : x.toNat < z.toNat := by rw [← hyzeq]; exact hxy
              simp [charListLe, hxz]
        · by_cases hyx : y.toNat < x.toNat
          · simp [charListLe, hxy, hyx] at h1
          · have hxyeq : x.toNat = y.toNat :=
              Nat.le_antisymm (Nat.le_of_not_lt hyx) (Nat.le_of_not_lt hxy)
            have h1' : charListLe xs ys = true := by
              simpa [charListLe, hxy, hyx] using h1
            by_cases hyz : y.toNat < z.toNat
            · have hxz : x.toNat < z.toNat := by rw [hxyeq]; exact hyz
              simp [charListLe, hxz]
            · by_cases hzy : z.toNat < y.toNat
              · simp [charListLe, hyz, hzy] at h2
              · have hyzeq : y.toNat = z.toNat :=
                  Nat.le_antisymm (Nat.le_of_not_lt hzy) (Nat.le_of_not_lt hyz)
                have h2' : charListLe ys zs = true := by
                  simpa [charListLe, hyz, hzy] using h2
                simp [charListLe, hxyeq.trans hyzeq, ih ys zs h1' h2']

/-- Code-point order is antisymmetric. -/
theorem charListLe_antisymm : ∀ a b, charListLe a b = true → charListLe b a = true →
    a = b := by
  intro a
  induction a with
  | nil =>
    intro b h1 h2
    cases b with
    | nil => rfl
    | cons y ys => simp [charListLe] at h2
  | cons x xs ih =>
    intro b h1 h2
    cases b with
    | nil => simp [charListLe] at h1
    | cons y ys =>
      by_cases hxy : x.toNat < y.toNat
      · simp [charListLe, hxy, Nat.lt_asymm hxy] at h2
      · by_cases hyx : y.toNat < x.toNat
        · simp [charListLe, hxy, hyx] at h1
        · have hEq : x.toNat = y.toNat :=
            Nat.le_antisymm (Nat.le_of_not_lt hyx) (Nat.le_of_not_lt hxy)
          have hc : x = y := by
            apply Char.ext
            unfold Char.toNat at hEq
            exact UInt32.toNat.inj hEq
          have h1' : charListLe xs ys = true := by
            simpa [charListLe, hxy, hyx] using h1
          have h2' : charListLe ys xs = true := by
            simpa [charListLe, hxy, hyx] using h2
          rw [hc, ih ys h1' h2']

/-- Python string comparison is total. -/
theorem strLe_total (a b : String) : strLe a b = true ∨ strLe b a = true :=
  charListLe_total _ _

/-- Python string comparison is transitive. -/
theorem strLe_trans (a b c : String) (h1 : strLe a b = true) (h2 : strLe b c = true) :
    strLe a c = true :=
  charListLe_trans _ _ _ h1 h2

/-- Python string comparison is antisymmetric. -/
theorem strLe_antisymm (a b : String) (h1 : strLe a b = true) (h2 : strLe b a = true) :
    a = b := by
  have h := charListLe_antisymm a.toList b.toList h1 h2
  cases a; cases b
  exact congrArg String.mk h

/-- Python tuple comparison on string pairs is total. -/
theorem pairKeyLeB_total (p q : String × String) :
    pairKeyLeB p q = true ∨ pairKeyLeB q p = true := by
  unfold pairKeyLeB
  by_cases h : p.1 = q.1
  · rw [if_pos h, if_pos h.symm]
    exact strLe_total p.2 q.2
  · rw [if_neg h, if_neg (fun hh => h hh.symm)]
    exact strLe_total p.1 q.1

/-- Python tuple comparison on string pairs is transitive. -/
theorem pairKeyLeB_trans (p q r : String × String) (h1 : pairKeyLeB p q = true)
    (h2 : pairKeyLeB q r = true) : pairKeyLeB p r = true := by
  unfold pairKeyLeB at h1 h2 ⊢
  by_cases hpq : p.1 = q.1
  · rw [if_pos hpq] at h1
    by_cases hqr : q.1 = r.1
    · rw [if_pos hqr] at h2
      rw [if_pos (hpq.trans hqr)]
      exact strLe_trans _ _ _ h1 h2
    · rw [if_neg hqr] at h2
      rw [if_neg (fun hh : p.1 = r.1 => hqr (hpq.symm.trans hh))]
      rw [hpq]
      exact h2
  · rw [if_neg hpq] at h1
    by_cases hqr : q.1 = r.1
    · rw [if_pos hqr] at h2
      rw [if_neg (fun hh : p.1 = r.1 => hpq (hh.trans hqr.symm))]
      rw [← hqr]
      exact h1
    · rw [if_neg hqr] at h2
      by_cases hpr : p.1 = r.1
      · exfalso
        have h2' : strLe q.1 p.1 = true := by rw [hpr]; exact h2
        exact hpq (strLe_antisymm _ _ h1 h2')
      · rw [if_neg hpr]
        exact strLe_trans _ _ _ h1 h2

/-- Python tuple comparison on string pairs is antisymmetric. -/
theorem pairKeyLeB_antisymm (p q : String × String) (h1 : pairKeyLeB p q = true)
    (h2 : pairKeyLeB q p = true) : p = q := by
  obtain ⟨p1, p2⟩ := p
  obtain ⟨q1, q2⟩ := q
  unfold pairKeyLeB at h1 h2
  by_cases h : p1 = q1
  · subst h
    rw [if_pos rfl] at h1
    rw [if_pos rfl] at h2
    have hq : p2 = q2 := strLe_antisymm p2 q2 h1 h2
    rw [hq]
  · rw [if_neg h] at h1
    rw [if_neg (fun hh : q1 = p1 => h hh.symm)] at h2
    exact absurd (strLe_antisymm _ _ h1 h2) h

/-- Two permuted lists with the same (duplicate-free) key sequence are
equal. -/
theorem eq_of_perm_eq_keys {α β : Type} (f : α → β) :
    ∀ (l1 l2 : List α), l1.Perm l2 → l1.map f = l2.map f → (l1.map f).Nodup →
      l1 = l2 := by
  intro l1
  induction l1 with
  | nil =>
    intro l2 hp _ _
    exact (hp.symm.eq_nil).symm
  | cons a t1 ih =>
    intro l2 hp hmap hnd
    cases l2 with
    | nil => exact List.noConfusion hp.eq_nil
    | cons b t2 =>
      simp only [List.map_cons] at hmap hnd
      injection hmap with hfa htm
      have hab : a = b := by
        have hain : a ∈ b :: t2 := hp.mem_iff.mp (List.mem_cons_self a t1)
        cases List.mem_cons.mp hain with
        | inl h => exact h
        | inr h =>
          exfalso
          have hin : f a ∈ List.map f t2 := List.mem_map.mpr ⟨a, h, rfl⟩
          rw [← htm] at hin
          exact (List.nodup_cons.mp hnd).1 hin
      subst hab
      have htp : t1.Perm t2 := hp.cons_inv
      have htn : (t1.map f).Nodup := (List.nodup_cons.mp hnd).2
      rw [ih t2 htp htm htn]

/-- The master-index sort really sorts by the `(colltype, title)` key. -/
theorem sorted_insertionSort_collKeyLe (l : List Collection) :
    List.Sorted collKeyLe (List.insertionSort collKeyLe l) := by
  haveI : IsTotal Collection collKeyLe := ⟨fun a b => pairKeyLeB_total _ _⟩
  haveI : IsTrans Collection collKeyLe := ⟨fun a b c h1 h2 => pairKeyLeB_trans _ _ _ h1 h2⟩
  exact List.sorted_insertionSort collKeyLe l

/-- The listing sort really sorts by recipe id. -/
theorem sorted_insertionSort_recipeIdLe (l : List Recipe) :
    List.Sorted recipeIdLe (List.insertionSort recipeIdLe l) := by
  haveI : IsTotal Recipe recipeIdLe := ⟨fun a b => strLe_total _ _⟩
  haveI : IsTrans Recipe recipeIdLe := ⟨fun a b c h1 h2 => strLe_trans _ _ _ h1 h2⟩
  exact List.sorted_insertionSort recipeIdLe l

/-- C6: the master index has one row per collection, in `(kind, title)`
lexicographic order whatever the input order; each row's count is the
official count when present (not `-1`) and the discovered count otherwise;
and for collections with pairwise distinct `(kind, title)` keys the emitted
index is one fixed string on every permutation of the finished list. -/
theorem generate_master_index_spec (l1 l2 : List Collection) :
    (master_index_rows l1).length = l1.length ∧
    List.Sorted collKeyLe (List.insertionSort collKeyLe l1) ∧
    (∀ c : Collection,
      (c.official_recipe_count ≠ -1 → master_index_row c =
        toString c.official_recipe_count ++ "\t" ++ c.colltype ++ "\t" ++ c.title ++ "\n") ∧
      (c.official_recipe_count = -1 → master_index_row c =
        toString c.actual_recipe_count ++ "\t" ++ c.colltype ++ "\t" ++ c.title ++ "\n")) ∧
    (l1.Perm l2 → (l1.map collKey).Nodup →
      generate_master_index l1 = generate_master_index l2) := by
  refine ⟨?_, sorted_insertionSort_collKeyLe l1,
    fun c => ⟨fun h => ?_, fun h => ?_⟩, fun hp hn => ?_⟩
  · unfold master_index_rows
    rw [List.length_map]
    exact (List.perm_insertionSort collKeyLe l1).length_eq
  · unfold master_index_row master_index_count
    rw [if_pos h]
  · unfold master_index_row master_index_count
    rw [if_neg (fun hne => hne h)]
  · have hperm : (List.insertionSort collKeyLe l1).Perm (List.insertionSort collKeyLe l2) :=
      (List.perm_insertionSort collKeyLe l1).trans
        (hp.trans (List.perm_insertionSort collKeyLe l2).symm)
    have hsort1 : List.Pairwise
        (fun a b : Collection => pairKeyLeB (collKey a) (collKey b) = true)
        (List.insertionSort collKeyLe l1) := sorted_insertionSort_collKeyLe l1
    have hsort2 : List.Pairwise
        (fun a b : Collection => pairKeyLeB (collKey a) (collKey b) = true)
        (List.insertionSort collKeyLe l2) := sorted_insertionSort_collKeyLe l2
    have hk1 : List.Pairwise (fun p q => pairKeyLeB p q = true)
        ((List.insertionSort collKeyLe l1).map collKey) := List.pairwise_map.mpr hsort1
    have hk2 : List.Pairwise (fun p q => pairKeyLeB p q = true)
        ((List.insertionSort collKeyLe l2).map collKey) := List.pairwise_map.mpr hsort2
    have hkeq : (List.insertionSort collKeyLe l1).map collKey
        = (List.insertionSort collKeyLe l2).map collKey := by
      haveI : IsAntisymm (String × String) (fun p q => pairKeyLeB p q = true) :=
        ⟨fun p q h1 h2 => pairKeyLeB_antisymm p q h1 h2⟩
      exact List.eq_of_perm_of_sorted (hperm.map collKey) hk1 hk2
    have hnodup : ((List.insertionSort collKeyLe l1).map collKey).Nodup := by
      have hpm : (l1.map collKey).Perm ((List.insertionSort collKeyLe l1).map collKey) :=
        (List.perm_insertionSort collKeyLe l1).symm.map collKey
      exact hpm.nodup hn
    have hfinal : List.insertionSort collKeyLe l1 = List.insertionSort collKeyLe l2 :=
      eq_of_perm_eq_keys collKey _ _ hperm hkeq hnodup
    unfold generate_master_index master_index_rows
    rw [hfinal]

/-- Witness for C6: two collections listed in either order produce the same
index text. -/
theorem generate_master_index_spec_witness :
    [collMains, collSoups].Perm [collSoups, collMains] ∧
    ([collMains, collSoups].map collKey).Nodup ∧
    generate_master_index [collMains, collSoups]
      = generate_master_index [collSoups, collMains] :=
  ⟨List.Perm.swap collSoups collMains [], by decide,
   (generate_master_index_spec [collMains, collSoups] [collSoups, collMains]).2.2.2
     (List.Perm.swap collSoups collMains []) (by decide)⟩

/-- String concatenation concatenates the underlying character lists. -/
theorem strToList_append (a b : String) : (a ++ b).toList = a.toList ++ b.toList := by
  cases a; cases b; rfl

/-- Newline counting distributes over concatenation. -/
theorem countNewlines_append (a b : String) :
    countNewlines (a ++ b) = countNewlines a + countNewlines b := by
  unfold countNewlines
  rw [strToList_append, List.count_append]

/-- Joining newline-free lines with `"\n"` produces one newline fewer than
the number of lines. -/
theorem countNewlines_joinWithNewline :
    ∀ ls : List String, (∀ l ∈ ls, countNewlines l = 0) → ls ≠ [] →
      countNewlines (joinWithNewline ls) = ls.length - 1 := by
  intro ls
  induction ls with
  | nil => intro _ h; exact absurd rfl h
  | cons l rest ih =>
    intro hall _
    cases rest with
    | nil =>
      have h0 : countNewlines l = 0 := hall l (List.mem_cons_self l [])
      simpa [joinWithNewline] using h0
    | cons l2 rest2 =>
      have h0 : countNewlines l = 0 := hall l (List.mem_cons_self l _)
      have hrest : ∀ x ∈ l2 :: rest2, countNewlines x = 0 := fun x hx =>
        hall x (List.mem_cons_of_mem l hx)
      have hne : (l2 :: rest2) ≠ [] := by simp
      show countNewlines (l ++ "\n" ++ joinWithNewline (l2 :: rest2))
        = (l :: l2 :: rest2).length - 1
      rw [countNewlines_append, countNewlines_append, h0, ih hrest hne]
      have h1 : countNewlines "\n" = 1 := rfl
      rw [h1]
      simp only [List.length_cons]
      omega

/-- A join of lines each containing a tab is never the empty string. -/
theorem joinWithNewline_ne_empty :
    ∀ ls : List String, (∀ l ∈ ls, '\t' ∈ l.toList) → ls ≠ [] →
      joinWithNewline ls ≠ "" := by
  intro ls
  cases ls with
  | nil => intro _ h; exact absurd rfl h
  | cons l rest =>
    intro hall _
    cases rest with
    | nil =>
      intro he
      have htab := hall l (List.mem_cons_self l [])
      rw [show joinWithNewline [l] = l from rfl] at he
      rw [he] at htab
      simp at htab
    | cons l2 rest2 =>
      intro he
      have hc : countNewlines (l ++ "\n" ++ joinWithNewline (l2 :: rest2)) = 0 := by
        rw [show joinWithNewline (l :: l2 :: rest2)
          = l ++ "\n" ++ joinWithNewline (l2 :: rest2) from rfl] at he
        rw [he]
        rfl
      rw [countNewlines_append, countNewlines_append] at hc
      have h1 : countNewlines "\n" = 1 := rfl
      rw [h1] at hc
      omega

/-- Every listing line contains the tab separator. -/
theorem tab_mem_lineOf (r : Recipe) : '\t' ∈ (lineOf r).toList := by
  unfold lineOf
  rw [strToList_append]
  refine List.mem_append.mpr (Or.inl ?_)
  rw [strToList_append]
  exact List.mem_append.mpr (Or.inr (by decide))

/-- A listing line of a recipe with newline-free fields is newline-free. -/
theorem countNewlines_lineOf (r : Recipe) (hid : countNewlines r.id = 0)
    (hurl : countNewlines r.url = 0) (htitle : countNewlines r.title = 0) :
    countNewlines (lineOf r) = 0 := by
  unfold lineOf
  rw [countNewlines_append, countNewlines_append, countNewlines_append,
    countNewlines_append, hid, hurl, htitle]
  decide

/-- When every recipe field is newline-free, the listing text holds exactly
one newline per recipe. -/
theorem countNewlines_recipe_list_text (recipes : List Recipe)
    (h : ∀ r ∈ recipes, countNewlines r.id = 0 ∧ countNewlines r.url = 0 ∧
      countNewlines r.title = 0) :
    countNewlines (recipe_list_text_of recipes) = recipes.length := by
  simp only [recipe_list_text_of]
  cases hs : List.insertionSort recipeIdLe recipes with
  | nil =>
    have hlen : recipes.length = 0 := by
      have hl := (List.perm_insertionSort recipeIdLe recipes).length_eq
      rw [hs] at hl
      simpa using hl.symm
    simp [joinWithNewline, countNewlines, hlen]
  | cons r rest =>
    have hperm := List.perm_insertionSort recipeIdLe recipes
    rw [hs] at hperm
    have hmem : ∀ q ∈ r :: rest, q ∈ recipes := fun q hq => hperm.mem_iff.mp hq
    have hlines0 : ∀ x ∈ (r :: rest).map lineOf, countNewlines x = 0 := by
      intro x hx
      obtain ⟨q, hq, rfl⟩ := List.mem_map.mp hx
      obtain ⟨h1, h2, h3⟩ := h q (hmem q hq)
      exact countNewlines_lineOf q h1 h2 h3
    have hlinestab : ∀ x ∈ (r :: rest).map lineOf, '\t' ∈ x.toList := by
      intro x hx
      obtain ⟨q, hq, rfl⟩ := List.mem_map.mp hx
      exact tab_mem_lineOf q
    have hlne : (r :: rest).map lineOf ≠ [] := by simp
    have hjne : joinWithNewline ((r :: rest).map lineOf) ≠ "" :=
      joinWithNewline_ne_empty _ hlinestab hlne
    rw [if_neg hjne, countNewlines_append,
      countNewlines_joinWithNewline _ hlines0 hlne]
    have h1 : countNewlines "\n" = 1 := rfl
    rw [h1, List.length_map]
    have hlen : (r :: rest).length = recipes.length := hperm.length_eq
    simp only [List.length_cons] at hlen ⊢
    omega

/-- C10 counterexample: a discovered recipe whose title contains an embedded
newline (tile extraction only strips the ends of the name) makes the listing
text hold two newlines for one recipe, so the expected line count of
`save_text` is missed and the mismatch warning fires. -/
theorem listing_warning_can_fire :
    collSoupsPopulated.all_recipes.length = 1 ∧
    countNewlines collSoupsPopulated.recipe_list_text = 2 ∧
    save_text_warns collSoupsPopulated.recipe_list_text
      (some collSoupsPopulated.all_recipes.length) = true := by decide

/-- C10 (amended): the per-collection listing is the id-sorted lines joined
with newlines plus a trailing newline exactly when non-empty; provided no
discovered recipe's id, url or title contains a newline character, the
text's newline count equals the number of recipes, so the `save_text`
line-count warning cannot fire for the listing. -/
theorem listing_line_count_spec (config : ScrapingConfiguration)
    (tiles : List (String × String × String)) (coll : Collection) :
    ((∀ r ∈ (populateCollectionData config tiles coll).all_recipes,
        countNewlines r.id = 0 ∧ countNewlines r.url = 0 ∧ countNewlines r.title = 0) →
      countNewlines (populateCollectionData config tiles coll).recipe_list_text
        = (populateCollectionData config tiles coll).all_recipes.length ∧
      save_text_warns (populateCollectionData config tiles coll).recipe_list_text
        (some (populateCollectionData config tiles coll).all_recipes.length) = false) ∧
    List.Sorted recipeIdLe
      (List.insertionSort recipeIdLe (populateCollectionData config tiles coll).all_recipes) ∧
    (populateCollectionData config tiles coll).recipe_list_text
      = recipe_list_text_of (populateCollectionData config tiles coll).all_recipes := by
  have htext : (populateCollectionData config tiles coll).recipe_list_text
      = recipe_list_text_of (populateCollectionData config tiles coll).all_recipes := rfl
  refine ⟨fun h => ?_, sorted_insertionSort_recipeIdLe _, htext⟩
  have hcount := countNewlines_recipe_list_text
    (populateCollectionData config tiles coll).all_recipes h
  rw [htext, hcount]
  refine ⟨rfl, ?_⟩
  unfold save_text_warns
  rw [hcount]
  simp

/-- Witness for C10 (amended): two newline-free tiles give a two-line listing
and no warning. -/
theorem listing_line_count_spec_witness :
    (∀ r ∈ (populateCollectionData cfgPlain [("b", "T", "U2"), ("a", "S", "U1")]
        collSoups).all_recipes,
      countNewlines r.id = 0 ∧ countNewlines r.url = 0 ∧ countNewlines r.title = 0) ∧
    save_text_warns
      (populateCollectionData cfgPlain [("b", "T", "U2"), ("a", "S", "U1")]
        collSoups).recipe_list_text
      (some (populateCollectionData cfgPlain [("b", "T", "U2"), ("a", "S", "U1")]
        collSoups).all_recipes.length) = false :=
  ⟨by decide,
   ((listing_line_count_spec cfgPlain [("b", "T", "U2"), ("a", "S", "U1")] collSoups).1
     (by decide)).2⟩

end Cookidump
